import Mathlib

/-!
Verification of the message-processing pipeline of the Feishu channel
plugin: the inbound dedup/expiry/mention gateway (src/gateway.ts), the
inter-bot mention-forwarding traversal (forwardMentionToBot and
createGroupDeliver in the channel plugin), and the direct-chat streaming
reply buffer (bufferedDeliver, flushBlockBuffer, rawDeliver).  Each
definition is a shallow embedding of the corresponding TypeScript
function: timestamps are Int milliseconds, JavaScript Maps are
association lists with Map.set update-in-place semantics, and the
external platform send API is abstracted into a trace of send operations.
-/

namespace Feishu

/-- TTL of the per-account dedup cache: 60 seconds (MESSAGE_DEDUPE_TTL_MS). -/
def MESSAGE_DEDUPE_TTL_MS : Int := 60 * 1000

/-- Expiry window for inbound messages: 30 minutes (MESSAGE_EXPIRE_TTL_MS). -/
def MESSAGE_EXPIRE_TTL_MS : Int := 30 * 60 * 1000

/-- Association-list model of JavaScript Map.set: replace an existing
binding in place (keeping its position) or append a fresh one. -/
def setEntry {β : Type} : List (String × β) → String → β → List (String × β)
  | [], k, v => [(k, v)]
  | (k', v') :: rest, k, v =>
    if k' = k then (k, v) :: rest else (k', v') :: setEntry rest k v

/-- Association-list model of JavaScript Map.get. -/
def getEntry {β : Type} : List (String × β) → String → Option β
  | [], _ => none
  | (k', v) :: rest, k => if k' = k then some v else getEntry rest k

/-- One account's dedup cache: messageId mapped to first-seen timestamp. -/
abbrev DedupCache := List (String × Int)

/-- The process-wide processedMessages map: accountId mapped to cache. -/
abbrev ProcessedMessages := List (String × DedupCache)

/-- cleanupDedupeCache from src/gateway.ts: delete cache entries whose
timestamp is older than the 60 s TTL (now - timestamp > TTL). -/
def cleanupDedupeCache (now : Int) (cache : DedupCache) : DedupCache :=
  cache.filter (fun ent => !decide (MESSAGE_DEDUPE_TTL_MS < now - ent.2))

/-- isDuplicateMessage from src/gateway.ts: true (duplicate, state
untouched) when the messageId is already cached for the account;
otherwise the messageId is recorded with the current time and, when the
per-account cache then holds more than 100 entries, the opportunistic
cleanup runs. -/
def isDuplicateMessage (state : ProcessedMessages) (accountId messageId : String)
    (now : Int) : Bool × ProcessedMessages :=
  let cache := (getEntry state accountId).getD []
  if (getEntry cache messageId).isSome then
    (true, state)
  else
    let cache₁ := setEntry cache messageId now
    let cache₂ := if 100 < cache₁.length then cleanupDedupeCache now cache₁ else cache₁
    (false, setEntry state accountId cache₂)

/-- Value of the longest leading run of decimal digits, none when the run
is empty (the digit phase of parseInt). -/
def parseDigits (cs : List Char) : Option Nat :=
  let ds := cs.takeWhile Char.isDigit
  if ds.isEmpty then none
  else some (ds.foldl (fun acc c => acc * 10 + (c.toNat - 48)) 0)

/-- Whitespace characters skipped by parseInt. -/
def isJsSpace (c : Char) : Bool :=
  (c == ' ') || (c == '\t') || (c == '\n') || (c == '\r')

/-- Model of JavaScript parseInt(s, 10): skip leading whitespace, read an
optional sign, then the longest digit run; NaN (none) when no digit
follows. -/
def parseIntJS (s : String) : Option Int :=
  match s.toList.dropWhile isJsSpace with
  | '-' :: rest => (parseDigits rest).map (fun n => -(n : Int))
  | '+' :: rest => (parseDigits rest).map (fun n => (n : Int))
  | cs => (parseDigits cs).map (fun n => (n : Int))

/-- isMessageExpired from src/gateway.ts: false when create_time is absent
or the empty string (JavaScript falsiness) or does not parse as an
integer; otherwise a message is expired exactly when now - createTime
strictly exceeds the 30-minute window. -/
def isMessageExpired (createTimeMs : Option String) (now : Int) : Bool :=
  match createTimeMs with
  | none => false
  | some s =>
    if s = "" then false
    else
      match parseIntJS s with
      | none => false
      | some createTime => decide (MESSAGE_EXPIRE_TTL_MS < now - createTime)

/-- One element of the inbound event's mentions array: mentions[i].id.open_id
and mentions[i].name. -/
structure MentionEntry where
  openId : Option String
  name : String
  deriving DecidableEq, Repr

/-- Outcome of the gateway's inline mention-resolution block. -/
structure MentionDecision where
  accept : Bool
  wasMentioned : Bool
  isMentionedThisBot : Bool
  deriving DecidableEq, Repr

/-- Mention resolution from the im.message.receive_v1 handler: in a group
chat with a non-empty mentions array only mentions[0] is compared with
the bot's own open id (which must itself be known and non-empty,
JavaScript truthiness of botOpenId); with an empty mentions array an
at-all marker in the text counts as mentioning this bot; the event is
skipped (accept = false) exactly when it is a group message that carries
a mention which is not for this bot. -/
def resolveMention (isGroupChat : Bool) (mentions : List MentionEntry)
    (hasAtAll : Bool) (botOpenId : Option String) : MentionDecision :=
  let flags :=
    if isGroupChat && !mentions.isEmpty then
      let mentionedOpenId := (mentions.headD ⟨none, ""⟩).openId
      let isMe :=
        match botOpenId, mentionedOpenId with
        | some b, some m => decide (b ≠ "") && decide (m = b)
        | _, _ => false
      (true, isMe)
    else if isGroupChat && hasAtAll then (true, true)
    else (false, false)
  { accept := !(isGroupChat && flags.1 && !flags.2),
    wasMentioned := flags.1,
    isMentionedThisBot := flags.2 }

/-- How the im.message.receive_v1 handler disposed of an inbound event. -/
inductive InboundOutcome where
  | rejectedDuplicate
  | rejectedExpired
  | rejectedMention
  | dispatched
  deriving DecidableEq, Repr

/-- The fields of an inbound event that the gateway's filter chain reads. -/
structure InboundEvent where
  accountId : String
  messageId : String
  createTime : Option String
  isGroupChat : Bool
  mentions : List MentionEntry
  hasAtAll : Bool
  deriving DecidableEq, Repr

/-- Result of the handler's filter chain: the disposition, the updated
dedup state, and whether the auto-acknowledge reaction was attempted
(placement succeeds only if the external API call does). -/
structure InboundResult where
  outcome : InboundOutcome
  state : ProcessedMessages
  ackPlaced : Bool
  deriving DecidableEq, Repr

/-- The im.message.receive_v1 handler's filter chain, in source order:
duplicate check (which records fresh ids), expiry check, mention
resolution, then dispatch; the acknowledgement reaction is attempted only
on the dispatch path and only when account.autoAcknowledge is not
explicitly false. -/
def handleInbound (state : ProcessedMessages) (ev : InboundEvent)
    (botOpenId : Option String) (autoAcknowledge : Option Bool)
    (now : Int) : InboundResult :=
  let dup := isDuplicateMessage state ev.accountId ev.messageId now
  if dup.1 then ⟨.rejectedDuplicate, dup.2, false⟩
  else if isMessageExpired ev.createTime now then ⟨.rejectedExpired, dup.2, false⟩
  else
    let d := resolveMention ev.isGroupChat ev.mentions ev.hasAtAll botOpenId
    if !d.accept then ⟨.rejectedMention, dup.2, false⟩
    else ⟨.dispatched, dup.2, decide (autoAcknowledge ≠ some false)⟩

/-- Quiescence delay of the direct-chat block buffer: 2 s (FLUSH_DELAY_MS). -/
def FLUSH_DELAY_MS : Int := 2000

/-- Latency ceiling of the direct-chat block buffer: 8 s (MAX_BUFFER_MS). -/
def MAX_BUFFER_MS : Int := 8000

/-- JavaScript truthiness of an optional string: undefined and the empty
string are falsy. -/
def jsFalsyStr : Option String → Bool
  | none => true
  | some s => s == ""

/-- Whitespace stripped by JavaScript String.prototype.trim (the common
whitespace characters; String.trim of the standard library is not used
because the embedding needs a trim that evaluates inside the kernel). -/
def isJsTrimmable (c : Char) : Bool :=
  (c == ' ') || (c == '\t') || (c == '\n') || (c == '\r') ||
    (c == '\x0b') || (c == '\x0c')

/-- Model of JavaScript text.trim(): strip leading and trailing whitespace. -/
def jsTrim (s : String) : String :=
  ⟨((s.toList.dropWhile isJsTrimmable).reverse.dropWhile isJsTrimmable).reverse⟩

/-- One outbound send operation of the direct-chat delivery path: a text
(or rich post, abstracted) message with its effective reply target, or
one media upload (media sends never carry a reply target). -/
inductive SendOp where
  | text : String → Option String → SendOp
  | media : String → SendOp
  deriving DecidableEq, Repr

/-- The mutable closure state of the direct-chat handler: the block
buffers, the buffer's reply anchor, when the buffer was opened, and
whether a quiescence flush timer is armed. -/
structure BufferState where
  blockTextBuffer : List String
  blockMediaBuffer : List String
  blockReplyToId : Option String
  bufferStartTime : Option Int
  flushTimerSet : Bool
  deriving DecidableEq, Repr

/-- The handler's state before any fragment arrives. -/
def initialBufferState : BufferState := ⟨[], [], none, none, false⟩

/-- The payload handed to the deliver callback: its text, its media
references (mediaUrls plus the single mediaUrl, combined), and its
replyToId. -/
structure Payload where
  text : String
  mediaUrls : List String
  replyToId : Option String
  deriving DecidableEq, Repr

/-- rawDeliver from the direct-chat handler: a single-message send that
suppresses the reply anchor once dmReplied is set.  With media present,
any non-whitespace text goes out first (anchored if allowed, setting
dmReplied) followed by one send per media url; with text only, one
anchored-if-allowed send that sets dmReplied; with nothing, no send.
The rich-post-then-plain-text fallback for fenced code blocks is
abstracted into the single text send.  Returns the sends and the new
dmReplied flag. -/
def rawDeliver (dmReplied : Bool) (text : String) (mediaUrls : List String)
    (replyToId : Option String) : List SendOp × Bool :=
  let effectiveReplyTo := if dmReplied then none else replyToId
  if mediaUrls ≠ [] then
    if jsTrim text ≠ "" then
      (SendOp.text text effectiveReplyTo :: mediaUrls.map SendOp.media, true)
    else
      (mediaUrls.map SendOp.media, dmReplied)
  else if text ≠ "" then
    ([SendOp.text text effectiveReplyTo], true)
  else ([], dmReplied)

/-- flushBlockBuffer: cancel the timer, forget the open time, drain the
buffered text (joined with newlines and trimmed) and media, and make one
rawDeliver call when there is content; a flush of an empty buffer is a
no-op.  Returns the cleared state, the new dmReplied flag and the sends. -/
def flushBlockBuffer (st : BufferState) (dmReplied : Bool) :
    BufferState × Bool × List SendOp :=
  let text := jsTrim (String.intercalate "\n" st.blockTextBuffer)
  if text ≠ "" ∨ st.blockMediaBuffer ≠ [] then
    let rd := rawDeliver dmReplied text st.blockMediaBuffer st.blockReplyToId
    (initialBufferState, rd.2, rd.1)
  else (initialBufferState, dmReplied, [])

/-- The append phase of bufferedDeliver's block branch: stamp the buffer
open time if unset (or stored as the falsy 0), buffer the trimmed text if
non-empty, extend the media buffer, and record the payload's replyToId as
the buffer anchor only when no truthy anchor is stored yet. -/
def appendBlock (st : BufferState) (now : Int) (p : Payload) : BufferState :=
  let text := jsTrim p.text
  let start :=
    match st.bufferStartTime with
    | none => now
    | some t => if t = 0 then now else t
  { blockTextBuffer := if text ≠ "" then st.blockTextBuffer ++ [text] else st.blockTextBuffer,
    blockMediaBuffer := st.blockMediaBuffer ++ p.mediaUrls,
    blockReplyToId :=
      if jsFalsyStr st.blockReplyToId && !jsFalsyStr p.replyToId then p.replyToId
      else st.blockReplyToId,
    bufferStartTime := some start,
    flushTimerSet := st.flushTimerSet }

/-- bufferedDeliver from the direct-chat handler: a block fragment is
appended to the buffer and flushed immediately only when the 8 s ceiling
has been reached, otherwise the 2 s quiescence timer is (re)armed and
nothing is sent; any other fragment kind (final or tool) first flushes
whatever is pending and then delivers its own content through rawDeliver
in a separate send. -/
def bufferedDeliver (st : BufferState) (dmReplied : Bool) (now : Int)
    (payload : Payload) (kind : Option String) :
    BufferState × Bool × List SendOp :=
  if kind = some "block" then
    let st' := appendBlock st now payload
    if MAX_BUFFER_MS ≤ now - ((st'.bufferStartTime).getD now) then
      flushBlockBuffer st' dmReplied
    else
      ({ st' with flushTimerSet := true }, dmReplied, [])
  else
    let fl := flushBlockBuffer st dmReplied
    let text := jsTrim payload.text
    if text ≠ "" ∨ payload.mediaUrls ≠ [] then
      let rd := rawDeliver fl.2.1 text payload.mediaUrls payload.replyToId
      (fl.1, rd.2, fl.2.2 ++ rd.1)
    else fl

/-- One fragment of a dispatched reply as the deliver callback sees it:
the payload, the meta kind, and the wall-clock time of its arrival. -/
structure Fragment where
  payload : Payload
  kind : Option String
  now : Int
  deriving DecidableEq, Repr

/-- Run the deliver callback over a sequence of fragments from a given
buffer state, accumulating the emitted sends in order. -/
def runFragmentsFrom (st : BufferState) (dmReplied : Bool) :
    List Fragment → BufferState × Bool × List SendOp
  | [] => (st, dmReplied, [])
  | f :: rest =>
    let step := bufferedDeliver st dmReplied f.now f.payload f.kind
    let restRun := runFragmentsFrom step.1 step.2.1 rest
    (restRun.1, restRun.2.1, step.2.2 ++ restRun.2.2)

/-- A whole direct-chat dispatch: fresh state, every fragment delivered in
order, then the trailing flushBlockBuffer the handler always performs
before finishing. -/
def runDispatch (frags : List Fragment) : BufferState × Bool × List SendOp :=
  let r := runFragmentsFrom initialBufferState false frags
  let fl := flushBlockBuffer r.1 r.2.1
  (fl.1, fl.2.1, r.2.2 ++ fl.2.2)

/-- A send that carries a reply anchor. -/
def isAnchored : SendOp → Bool
  | SendOp.text _ (some _) => true
  | _ => false

/-- Number of anchored sends in a trace. -/
def anchCount (sends : List SendOp) : Nat := sends.countP isAnchored

/-- Number of anchored sends still permitted once dmReplied has value r. -/
def anchorBudget (r : Bool) : Nat := if r then 0 else 1

/-- Hard ceiling on forwarding depth (MAX_FORWARD_DEPTH). -/
def MAX_FORWARD_DEPTH : Nat := 30

/-- The forwarding traversal state threaded through inter-bot dispatches:
the depth and the already-forwarded edges (a set in the source, kept here
as a list of edge keys; only membership is ever consulted). -/
structure ForwardContext where
  depth : Nat
  visitedEdges : List String
  deriving DecidableEq, Repr

/-- The edge key the code builds with a template string from the sender
account id and the target account id. -/
def mkEdge (senderId targetId : String) : String := senderId ++ "→" ++ targetId

/-- One forward that passed both guards: the sending account, the target
bot, and the traversal state the target's dispatch receives. -/
structure ForwardEvent where
  senderId : String
  targetId : String
  ctxReceived : ForwardContext
  deriving DecidableEq, Repr

/-- The edge key of a forward event. -/
def eventEdge (ev : ForwardEvent) : String := mkEdge ev.senderId ev.targetId

/-- forwardMentionToBot together with the forwarding tail of the deliver
closure it installs (createGroupDeliver), mutually recursive in the
source, embedded as one fuel-indexed function that returns the trace of
forwards that passed both guards, in execution order.  The agent runtime
is abstracted by reply: for each dispatched bot, the fragments of its
reply, each fragment abstracted to the list of bots detectMentionedBots
finds in its text (the sender itself already excluded, since
detectMentionedBots skips it).  A call aborts with an empty trace when
the depth ceiling is reached or when the edge is already in
visitedEdges; otherwise the target is dispatched with the copy-on-write
extension (depth + 1, visitedEdges plus the edge) and each fragment of
its reply is forwarded to each bot it mentions with that same extension,
exactly as the deliver closure's loop does.  The fuel only bounds the
unfolding and is chosen large enough in every statement below; it has no
counterpart in the source. -/
def forwardMentionToBot (reply : String → List (List String)) :
    Nat → String → String → ForwardContext → List ForwardEvent
  | 0, _, _, _ => []
  | fuel + 1, targetId, senderId, ctx =>
    if MAX_FORWARD_DEPTH ≤ ctx.depth then []
    else if mkEdge senderId targetId ∈ ctx.visitedEdges then []
    else
      ⟨senderId, targetId, ⟨ctx.depth + 1, mkEdge senderId targetId :: ctx.visitedEdges⟩⟩ ::
        ((reply targetId).map (fun mentioned =>
          if ctx.depth + 1 < MAX_FORWARD_DEPTH ∧ mentioned ≠ [] then
            (mentioned.map (fun t =>
              forwardMentionToBot reply fuel t targetId
                ⟨ctx.depth + 1, mkEdge senderId targetId :: ctx.visitedEdges⟩)).flatten
          else [])).flatten

/-- The forwarding tail of one deliver call made by the closure
createGroupDeliver returns: when the depth ceiling is not reached and the
fragment mentions at least one bot, forward to each mentioned bot with
the closure's traversal state — the same state, unmutated, for every
iteration of the loop. -/
def groupDeliverFragment (reply : String → List (List String)) (fuel : Nat)
    (senderId : String) (ctx : ForwardContext) (mentioned : List String) :
    List ForwardEvent :=
  if ctx.depth < MAX_FORWARD_DEPTH ∧ mentioned ≠ [] then
    (mentioned.map (fun t => forwardMentionToBot reply fuel t senderId ctx)).flatten
  else []

/-- A root group dispatch: the root bot's own reply fragments are
delivered by createGroupDeliver with the fresh traversal state of depth 0
and no visited edges. -/
def rootGroupDispatch (reply : String → List (List String)) (fuel : Nat)
    (senderId : String) : List ForwardEvent :=
  ((reply senderId).map (groupDeliverFragment reply fuel senderId ⟨0, []⟩)).flatten

/-- A reply behaviour whose dispatch tree reuses one edge across sibling
branches: bot A mentions B and C in one fragment, bot B replies
mentioning A, and bot C replies nothing. -/
def replyDup : String → List (List String) :=
  fun b => if b = "A" then [["B", "C"]] else if b = "B" then [["A"]] else []

/-- The mutual-mention behaviour of the 3-cycle scenario: every reply of
A mentions B and every reply of B mentions A. -/
def replyCycle : String → List (List String) :=
  fun b => if b = "A" then [["B"]] else if b = "B" then [["A"]] else []

theorem getEntry_setEntry_self {β : Type} (l : List (String × β)) (k : String) (v : β) :
    getEntry (setEntry l k v) k = some v := by
  induction l with
  | nil => simp [setEntry, getEntry]
  | cons h t ih =>
    obtain ⟨k', v'⟩ := h
    by_cases hk : k' = k
    · simp [setEntry, getEntry, hk]
    · simp [setEntry, getEntry, hk, ih]

theorem getEntry_filter {β : Type} (l : List (String × β)) (k : String) (v : β)
    (p : String × β → Bool) (hl : getEntry l k = some v) (hp : p (k, v) = true) :
    getEntry (l.filter p) k = some v := by
  induction l with
  | nil => simp [getEntry] at hl
  | cons h t ih =>
    obtain ⟨k', v'⟩ := h
    by_cases hk : k' = k
    · subst hk
      simp [getEntry] at hl
      subst hl
      simp [List.filter, hp, getEntry]
    · simp [getEntry, hk] at hl
      cases hpv : p (k', v') with
      | true => simp [List.filter, hpv, getEntry, hk, ih hl]
      | false => simp [List.filter, hpv, ih hl]

theorem isDuplicateMessage_fresh (s : ProcessedMessages) (a e : String) (t : Int)
    (hfresh : getEntry ((getEntry s a).getD []) e = none) :
    (isDuplicateMessage s a e t).1 = false ∧
    getEntry ((getEntry (isDuplicateMessage s a e t).2 a).getD []) e = some t := by
  have h1 : isDuplicateMessage s a e t =
      (false, setEntry s a
        (if 100 < (setEntry ((getEntry s a).getD []) e t).length
         then cleanupDedupeCache t (setEntry ((getEntry s a).getD []) e t)
         else setEntry ((getEntry s a).getD []) e t)) := by
    simp [isDuplicateMessage, hfresh]
  refine ⟨by simp [h1], ?_⟩
  rw [h1]
  simp only [getEntry_setEntry_self, Option.getD_some]
  split
  · unfold cleanupDedupeCache
    apply getEntry_filter _ _ _ _ (getEntry_setEntry_self _ _ _)
    simp [MESSAGE_DEDUPE_TTL_MS]
  · exact getEntry_setEntry_self _ _ _

/-- C2: with the pair (accountId, eventId) not yet recorded, the first call
to the dedup filter accepts (not a duplicate) and records the id, and a
second call with the identical pair within the 60 s TTL rejects it as a
duplicate at the handler level, whatever the event's create_time says
about staleness (the duplicate check runs before the expiry check and
never consults create_time). -/
theorem dedup_accept_then_reject
    (s : ProcessedMessages) (a e : String) (t₁ t₂ : Int) (ct : Option String)
    (isG : Bool) (ms : List MentionEntry) (atAll : Bool)
    (bo : Option String) (ack : Option Bool)
    (hfresh : getEntry ((getEntry s a).getD []) e = none)
    (_httl : t₂ - t₁ ≤ MESSAGE_DEDUPE_TTL_MS) :
    (isDuplicateMessage s a e t₁).1 = false ∧
    (isDuplicateMessage (isDuplicateMessage s a e t₁).2 a e t₂).1 = true ∧
    (handleInbound (isDuplicateMessage s a e t₁).2 ⟨a, e, ct, isG, ms, atAll⟩ bo ack t₂).outcome
      = InboundOutcome.rejectedDuplicate := by
  obtain ⟨hfst, hrec⟩ := isDuplicateMessage_fresh s a e t₁ hfresh
  set s₁ := (isDuplicateMessage s a e t₁).2 with hs₁
  have hhit : isDuplicateMessage s₁ a e t₂ = (true, s₁) := by
    simp [isDuplicateMessage, hrec]
  refine ⟨hfst, by rw [hhit], ?_⟩
  simp [handleInbound, hhit]

/-- C2 witness: a concrete fresh pair is accepted once and rejected on the
repeat call 10 ms later, with a stale create_time on the repeat. -/
theorem dedup_accept_then_reject_witness :
    (isDuplicateMessage [] "acct" "m1" 1000).1 = false ∧
    (isDuplicateMessage (isDuplicateMessage [] "acct" "m1" 1000).2 "acct" "m1" 1010).1 = true ∧
    (handleInbound (isDuplicateMessage [] "acct" "m1" 1000).2
        ⟨"acct", "m1", some "0", false, [], false⟩ none none 1010).outcome
      = InboundOutcome.rejectedDuplicate :=
  dedup_accept_then_reject [] "acct" "m1" 1000 1010 (some "0") false [] false none none
    (by decide) (by decide)

/-- C3 counterexample: an event rejected as expired does not leave the
dedup record unchanged — the eventId is recorded during the duplicate
check, which runs before the expiry check.  Concretely, from an empty
state, an event created at time 0 handled at 40 minutes is rejected as
expired yet its id is now recorded with the handling time. -/
theorem dedup_records_expired_cex :
    (handleInbound [] ⟨"acct", "m1", some "0", false, [], false⟩ none none 2400000).outcome
      = InboundOutcome.rejectedExpired ∧
    getEntry ((getEntry (handleInbound [] ⟨"acct", "m1", some "0", false, [], false⟩
        none none 2400000).state "acct").getD []) "m1" = some 2400000 := by
  decide

/-- C3 (amended): the dedup filter leaves the per-account record unchanged
when it rejects an event as a duplicate; but a fresh eventId is recorded
during the duplicate check itself, so an event that is then rejected as
expired still leaves its id recorded with the handling time. -/
theorem dedup_record_update_semantics
    (s : ProcessedMessages) (a e : String) (t : Int) (ct : Option String)
    (isG : Bool) (ms : List MentionEntry) (atAll : Bool)
    (bo : Option String) (ack : Option Bool) :
    ((getEntry ((getEntry s a).getD []) e).isSome = true →
      isDuplicateMessage s a e t = (true, s)) ∧
    (getEntry ((getEntry s a).getD []) e = none →
      isMessageExpired ct t = true →
      (handleInbound s ⟨a, e, ct, isG, ms, atAll⟩ bo ack t).outcome
          = InboundOutcome.rejectedExpired ∧
      getEntry ((getEntry (handleInbound s ⟨a, e, ct, isG, ms, atAll⟩ bo ack t).state a).getD [])
          e = some t) := by
  constructor
  · intro hdup
    simp [isDuplicateMessage, hdup]
  · intro hfresh hexp
    obtain ⟨hfst, hrec⟩ := isDuplicateMessage_fresh s a e t hfresh
    have hh : handleInbound s ⟨a, e, ct, isG, ms, atAll⟩ bo ack t =
        ⟨InboundOutcome.rejectedExpired, (isDuplicateMessage s a e t).2, false⟩ := by
      simp [handleInbound, hfst, hexp]
    rw [hh]
    exact ⟨rfl, hrec⟩

/-- C3 amended witness: duplicate rejection leaves a concrete one-entry
state untouched, and a fresh-but-expired event gets recorded anyway. -/
theorem dedup_record_update_semantics_witness :
    isDuplicateMessage [("acct", [("m1", 5)])] "acct" "m1" 9
        = (true, [("acct", [("m1", 5)])]) ∧
    ((handleInbound [] ⟨"acct", "m2", some "0", false, [], false⟩ none none 2400000).outcome
        = InboundOutcome.rejectedExpired ∧
     getEntry ((getEntry (handleInbound [] ⟨"acct", "m2", some "0", false, [], false⟩
        none none 2400000).state "acct").getD []) "m2" = some 2400000) :=
  ⟨(dedup_record_update_semantics [("acct", [("m1", 5)])] "acct" "m1" 9 none
      false [] false none none).1 (by decide),
   (dedup_record_update_semantics [] "acct" "m2" 2400000 (some "0") false [] false
      none none).2 (by decide) (by decide)⟩

/-- C5: an inbound event whose parsed create_time is more than 30 minutes
older than now is never dispatched, whatever the dedup state: the handler
rejects it as a duplicate or as expired, and the acknowledgement reaction
is not attempted. -/
theorem expired_not_dispatched
    (s : ProcessedMessages) (a e cs : String) (tc now : Int)
    (isG : Bool) (ms : List MentionEntry) (atAll : Bool)
    (bo : Option String) (ack : Option Bool)
    (hparse : parseIntJS cs = some tc)
    (hold : MESSAGE_EXPIRE_TTL_MS < now - tc) :
    ((handleInbound s ⟨a, e, some cs, isG, ms, atAll⟩ bo ack now).outcome
        = InboundOutcome.rejectedDuplicate ∨
     (handleInbound s ⟨a, e, some cs, isG, ms, atAll⟩ bo ack now).outcome
        = InboundOutcome.rejectedExpired) ∧
    (handleInbound s ⟨a, e, some cs, isG, ms, atAll⟩ bo ack now).ackPlaced = false := by
  have hne : cs ≠ "" := by
    intro h
    rw [h] at hparse
    simp [parseIntJS, parseDigits] at hparse
  have hexp : isMessageExpired (some cs) now = true := by
    simp [isMessageExpired, hne, hparse, hold]
  cases hdup : (isDuplicateMessage s a e now).1 with
  | true => simp [handleInbound, hdup]
  | false => simp [handleInbound, hdup, hexp]

/-- C5 witness: a 40-minute-old event on an empty dedup state is rejected
as expired with no acknowledgement. -/
theorem expired_not_dispatched_witness :
    ((handleInbound [] ⟨"acct", "m1", some "0", false, [], false⟩ none none 2400000).outcome
        = InboundOutcome.rejectedDuplicate ∨
     (handleInbound [] ⟨"acct", "m1", some "0", false, [], false⟩ none none 2400000).outcome
        = InboundOutcome.rejectedExpired) ∧
    (handleInbound [] ⟨"acct", "m1", some "0", false, [], false⟩ none none 2400000).ackPlaced
        = false :=
  expired_not_dispatched [] "acct" "m1" "0" 0 2400000 false [] false none none
    (by decide) (by decide)

/-- C10: a message whose create_time is absent, or is present but not a
parseable integer, is treated as not expired by isMessageExpired, however
old the message really is. -/
theorem unparseable_create_time_not_expired :
    (∀ now : Int, isMessageExpired none now = false) ∧
    (∀ (s : String) (now : Int), parseIntJS s = none →
      isMessageExpired (some s) now = false) := by
  constructor
  · intro now
    rfl
  · intro s now hp
    by_cases hs : s = "" <;> simp [isMessageExpired, hs, hp]

/-- C10 witness: absent create_time at a huge now, and the unparseable
create_time "abc" at the same now, are both not expired. -/
theorem unparseable_create_time_not_expired_witness :
    isMessageExpired none 1000000000000000 = false ∧
    isMessageExpired (some "abc") 1000000000000000 = false :=
  ⟨unparseable_create_time_not_expired.1 1000000000000000,
   unparseable_create_time_not_expired.2 "abc" 1000000000000000 (by decide)⟩

/-- C4: in a group chat with a non-empty mentions array whose first entry
does not carry the bot's own open id, the event is rejected outright —
accept is false and the handler stops with rejectedMention before any
dispatch or acknowledgement — even when a later mention entry does carry
the bot's open id (the resolver only ever inspects mentions[0]). -/
theorem first_mention_not_self_rejects
    (m0 : MentionEntry) (rest : List MentionEntry) (b : String) (atAll : Bool)
    (s : ProcessedMessages) (a e : String) (ct : Option String) (now : Int)
    (ack : Option Bool)
    (_hb : b ≠ "") (hne : m0.openId ≠ some b)
    (hdup : (isDuplicateMessage s a e now).1 = false)
    (hexp : isMessageExpired ct now = false) :
    (resolveMention true (m0 :: rest) atAll (some b)).accept = false ∧
    (handleInbound s ⟨a, e, ct, true, m0 :: rest, atAll⟩ (some b) ack now).outcome
        = InboundOutcome.rejectedMention ∧
    (handleInbound s ⟨a, e, ct, true, m0 :: rest, atAll⟩ (some b) ack now).ackPlaced
        = false := by
  have hacc : (resolveMention true (m0 :: rest) atAll (some b)).accept = false := by
    cases hm : m0.openId with
    | none => simp [resolveMention, hm]
    | some m =>
      have hmb : m ≠ b := fun h => hne (by rw [hm, h])
      simp [resolveMention, hm, hmb]
  refine ⟨hacc, ?_, ?_⟩ <;> simp [handleInbound, hdup, hexp, hacc]

/-- C4 witness: the first mention targets another bot while the second
mention is the bot itself; the event is still rejected. -/
theorem first_mention_not_self_rejects_witness :
    (resolveMention true [⟨some "other", "Bob"⟩, ⟨some "me", "Self"⟩] false (some "me")).accept
        = false ∧
    (handleInbound [] ⟨"acct", "m1", none, true, [⟨some "other", "Bob"⟩, ⟨some "me", "Self"⟩],
        false⟩ (some "me") none 1000).outcome = InboundOutcome.rejectedMention ∧
    (handleInbound [] ⟨"acct", "m1", none, true, [⟨some "other", "Bob"⟩, ⟨some "me", "Self"⟩],
        false⟩ (some "me") none 1000).ackPlaced = false :=
  first_mention_not_self_rejects ⟨some "other", "Bob"⟩ [⟨some "me", "Self"⟩] "me" false
    [] "acct" "m1" none 1000 none (by decide) (by decide) (by decide) (by decide)

/-- C6: when a final or tool fragment with non-blank text and no media
arrives while the buffer holds blocks whose joined text is non-blank (and
no media), exactly two sends occur: first the buffered text as its own
send, then the final fragment's own text as a separate send — the final
content is never merged into the buffered send. -/
theorem final_flushes_then_delivers
    (st : BufferState) (r : Bool) (now : Int) (p : Payload) (kind : Option String)
    (hk : kind ≠ some "block")
    (hbufText : jsTrim (String.intercalate "\n" st.blockTextBuffer) ≠ "")
    (hbufMedia : st.blockMediaBuffer = [])
    (hpt : jsTrim p.text ≠ "") (hpm : p.mediaUrls = []) :
    (bufferedDeliver st r now p kind).2.2 =
      [SendOp.text (jsTrim (String.intercalate "\n" st.blockTextBuffer))
          (if r then none else st.blockReplyToId),
       SendOp.text (jsTrim p.text) none] := by
  unfold bufferedDeliver
  rw [if_neg hk]
  simp [flushBlockBuffer, rawDeliver, hbufText, hbufMedia, hpt, hpm]

/-- C6 witness: two buffered text blocks and a final text fragment yield
exactly the two sends, buffered content first. -/
theorem final_flushes_then_delivers_witness :
    (bufferedDeliver ⟨["a", "b"], [], some "m1", some 1000, true⟩ false 5000
        ⟨"hi", [], some "m2"⟩ none).2.2 =
      [SendOp.text "a\nb" (some "m1"), SendOp.text "hi" none] :=
  final_flushes_then_delivers ⟨["a", "b"], [], some "m1", some 1000, true⟩ false 5000
    ⟨"hi", [], some "m2"⟩ none (by decide) (by decide) rfl (by decide) rfl

theorem countP_isAnchored_media (m : List String) :
    (m.map SendOp.media).countP isAnchored = 0 := by
  induction m with
  | nil => rfl
  | cons a l ih => simp [List.countP_cons, isAnchored, ih]

theorem countP_isAnchored_comp_media (m : List String) :
    List.countP (isAnchored ∘ SendOp.media) m = 0 := by
  induction m with
  | nil => rfl
  | cons a l ih => simp [List.countP_cons, isAnchored, Function.comp, ih]

theorem rawDeliver_anchor_budget (r : Bool) (t : String) (m : List String)
    (rid : Option String) :
    anchCount (rawDeliver r t m rid).1 + anchorBudget (rawDeliver r t m rid).2
      ≤ anchorBudget r := by
  unfold rawDeliver anchCount anchorBudget
  cases r <;> cases rid <;>
    split_ifs <;>
      simp_all [List.countP_cons, countP_isAnchored_media,
        countP_isAnchored_comp_media, isAnchored]

theorem flushBlockBuffer_anchor_budget (st : BufferState) (r : Bool) :
    anchCount (flushBlockBuffer st r).2.2 + anchorBudget (flushBlockBuffer st r).2.1
      ≤ anchorBudget r := by
  simp only [flushBlockBuffer]
  split
  · exact rawDeliver_anchor_budget r _ _ _
  · simp [anchCount, anchorBudget]

theorem bufferedDeliver_anchor_budget (st : BufferState) (r : Bool) (now : Int)
    (p : Payload) (kind : Option String) :
    anchCount (bufferedDeliver st r now p kind).2.2
      + anchorBudget (bufferedDeliver st r now p kind).2.1 ≤ anchorBudget r := by
  simp only [bufferedDeliver]
  split
  · split
    · exact flushBlockBuffer_anchor_budget _ _
    · simp [anchCount, anchorBudget]
  · split
    · have h1 := flushBlockBuffer_anchor_budget st r
      have h2 := rawDeliver_anchor_budget (flushBlockBuffer st r).2.1 (jsTrim p.text)
        p.mediaUrls p.replyToId
      simp only [anchCount, List.countP_append] at *
      omega
    · exact flushBlockBuffer_anchor_budget _ _

theorem runFragmentsFrom_anchor_budget (frags : List Fragment) :
    ∀ (st : BufferState) (r : Bool),
      anchCount (runFragmentsFrom st r frags).2.2
        + anchorBudget (runFragmentsFrom st r frags).2.1 ≤ anchorBudget r := by
  induction frags with
  | nil =>
    intro st r
    simp [runFragmentsFrom, anchCount]
  | cons f rest ih =>
    intro st r
    have h1 := bufferedDeliver_anchor_budget st r f.now f.payload f.kind
    have h2 := ih (bufferedDeliver st r f.now f.payload f.kind).1
      (bufferedDeliver st r f.now f.payload f.kind).2.1
    simp only [runFragmentsFrom, anchCount, List.countP_append] at *
    omega

/-- C7 counterexample: both halves of the claim fail on the code.  First
run: two buffered block fragments are flushed as one send, yet the send's
reply target is the second fragment's replyToEventId, not the first
fragment's (which carried none).  Second run: a media-only fragment makes
the first outbound send of the dispatch, dmReplied stays unset, and the
second outbound send still carries a reply anchor. -/
theorem reply_anchor_claim_cex :
    (runDispatch [⟨⟨"a", [], none⟩, some "block", 1000⟩,
                  ⟨⟨"b", [], some "m1"⟩, some "block", 1100⟩]).2.2
      = [SendOp.text "a\nb" (some "m1")] ∧
    (runDispatch [⟨⟨"", ["u"], some "m"⟩, none, 1000⟩,
                  ⟨⟨"hi", [], some "m"⟩, none, 1100⟩]).2.2
      = [SendOp.media "u", SendOp.text "hi" (some "m")] := by
  decide

/-- C7 (amended): a buffered reply anchor, once set, is never overwritten
by a later fragment; when no anchor is stored yet, the first fragment
carrying a truthy replyToId sets it; a flush of pending text with no
prior text send emits one send anchored to the stored anchor; and across
a whole dispatch at most one outbound send carries a reply anchor (media
sends never do). -/
theorem reply_anchor_semantics :
    (∀ (st : BufferState) (now : Int) (p : Payload),
      jsFalsyStr st.blockReplyToId = false →
      (appendBlock st now p).blockReplyToId = st.blockReplyToId) ∧
    (∀ (st : BufferState) (now : Int) (p : Payload),
      st.blockReplyToId = none → jsFalsyStr p.replyToId = false →
      (appendBlock st now p).blockReplyToId = p.replyToId) ∧
    (∀ st : BufferState,
      jsTrim (String.intercalate "\n" st.blockTextBuffer) ≠ "" →
      st.blockMediaBuffer = [] →
      (flushBlockBuffer st false).2.2 =
        [SendOp.text (jsTrim (String.intercalate "\n" st.blockTextBuffer))
          st.blockReplyToId]) ∧
    (∀ frags : List Fragment, anchCount (runDispatch frags).2.2 ≤ 1) := by
  refine ⟨?_, ?_, ?_, ?_⟩
  · intro st now p h
    simp [appendBlock, h]
  · intro st now p h1 h2
    have h3 : jsFalsyStr (none : Option String) = true := rfl
    simp [appendBlock, h1, h2, h3]
  · intro st h1 h2
    simp [flushBlockBuffer, rawDeliver, h1, h2]
  · intro frags
    have h1 := runFragmentsFrom_anchor_budget frags initialBufferState false
    have h2 := flushBlockBuffer_anchor_budget
      (runFragmentsFrom initialBufferState false frags).1
      (runFragmentsFrom initialBufferState false frags).2.1
    have h3 : anchorBudget false = 1 := rfl
    simp only [runDispatch, anchCount, List.countP_append] at *
    omega

/-- C7 amended witness: a stored anchor survives a later fragment, a first
truthy replyToId is recorded, a concrete flush is anchored to the stored
anchor, and a concrete dispatch has at most one anchored send. -/
theorem reply_anchor_semantics_witness :
    (appendBlock ⟨["a"], [], some "m0", some 1000, true⟩ 1100
        ⟨"b", [], some "m1"⟩).blockReplyToId = some "m0" ∧
    (appendBlock initialBufferState 1000 ⟨"a", [], some "m1"⟩).blockReplyToId
        = some "m1" ∧
    (flushBlockBuffer ⟨["a", "b"], [], some "m1", some 1000, true⟩ false).2.2
        = [SendOp.text "a\nb" (some "m1")] ∧
    anchCount (runDispatch [⟨⟨"a", [], some "m1"⟩, some "block", 1000⟩,
        ⟨⟨"", [], none⟩, none, 1200⟩]).2.2 ≤ 1 :=
  ⟨reply_anchor_semantics.1 ⟨["a"], [], some "m0", some 1000, true⟩ 1100
      ⟨"b", [], some "m1"⟩ (by decide),
   reply_anchor_semantics.2.1 initialBufferState 1000 ⟨"a", [], some "m1"⟩ rfl (by decide),
   reply_anchor_semantics.2.2.1 ⟨["a", "b"], [], some "m1", some 1000, true⟩
      (by decide) rfl,
   reply_anchor_semantics.2.2.2 [⟨⟨"a", [], some "m1"⟩, some "block", 1000⟩,
      ⟨⟨"", [], none⟩, none, 1200⟩]⟩

theorem flushBlockBuffer_clears (st : BufferState) (r : Bool) :
    (flushBlockBuffer st r).1 = initialBufferState := by
  simp only [flushBlockBuffer]
  split <;> rfl

theorem runBlocks_no_send (t₀ : Int) (ht : t₀ ≠ 0) (frags : List Fragment) :
    ∀ (st : BufferState) (r : Bool),
      st.bufferStartTime = some t₀ →
      (∀ f ∈ frags, f.kind = some "block" ∧ f.now - t₀ < MAX_BUFFER_MS) →
      (runFragmentsFrom st r frags).2.2 = [] ∧
      (runFragmentsFrom st r frags).1.bufferStartTime = some t₀ := by
  induction frags with
  | nil =>
    intro st r hst _
    exact ⟨rfl, hst⟩
  | cons f rest ih =>
    intro st r hst hall
    obtain ⟨hk, hlt⟩ := hall f (List.mem_cons_self f rest)
    have hstart : (appendBlock st f.now f.payload).bufferStartTime = some t₀ := by
      simp [appendBlock, hst, ht]
    have hstep : bufferedDeliver st r f.now f.payload f.kind =
        ({ appendBlock st f.now f.payload with flushTimerSet := true }, r, []) := by
      simp only [bufferedDeliver, hk, if_true, hstart, Option.getD_some]
      rw [if_neg (by omega)]
    have hrest := ih ({ appendBlock st f.now f.payload with flushTimerSet := true }) r
      (by simpa using hstart) (fun g hg => hall g (List.mem_cons_of_mem f hg))
    constructor
    · simp only [runFragmentsFrom, hstep]
      simpa using hrest.1
    · simp only [runFragmentsFrom, hstep]
      simpa using hrest.2

/-- C8: a continuous stream of block fragments, each arriving before the
8 s ceiling since the buffer was opened by the first fragment (the 2 s
quiescence timer is re-armed on each and never fires between fragments
spaced under 2 s), produces no send at all; and once 8 s have elapsed
since the buffer was opened, a block append performs the flush in the
same call, leaving an empty, timerless buffer. -/
theorem buffer_latency_bound :
    (∀ (f₀ : Fragment) (rest : List Fragment),
      f₀.kind = some "block" → f₀.now ≠ 0 →
      (∀ f ∈ rest, f.kind = some "block" ∧ f.now - f₀.now < MAX_BUFFER_MS) →
      (runFragmentsFrom initialBufferState false (f₀ :: rest)).2.2 = []) ∧
    (∀ (st : BufferState) (r : Bool) (now t₀ : Int) (p : Payload),
      st.bufferStartTime = some t₀ → t₀ ≠ 0 →
      MAX_BUFFER_MS ≤ now - t₀ →
      bufferedDeliver st r now p (some "block")
          = flushBlockBuffer (appendBlock st now p) r ∧
      (bufferedDeliver st r now p (some "block")).1 = initialBufferState) := by
  constructor
  · intro f₀ rest hk hnz hall
    have hstart : (appendBlock initialBufferState f₀.now f₀.payload).bufferStartTime
        = some f₀.now := by
      simp [appendBlock, initialBufferState]
    have hstep : bufferedDeliver initialBufferState false f₀.now f₀.payload f₀.kind =
        ({ appendBlock initialBufferState f₀.now f₀.payload with flushTimerSet := true },
          false, []) := by
      simp only [bufferedDeliver, hk, if_true, hstart, Option.getD_some]
      rw [if_neg (by simp only [MAX_BUFFER_MS]; omega)]
    have hrest := runBlocks_no_send f₀.now hnz rest
      ({ appendBlock initialBufferState f₀.now f₀.payload with flushTimerSet := true })
      false (by simpa using hstart) hall
    simp only [runFragmentsFrom, hstep]
    simpa using hrest.1
  · intro st r now t₀ p hst hnz hceil
    have hstart : (appendBlock st now p).bufferStartTime = some t₀ := by
      simp [appendBlock, hst, hnz]
    have heq : bufferedDeliver st r now p (some "block")
        = flushBlockBuffer (appendBlock st now p) r := by
      simp only [bufferedDeliver, if_true, hstart, Option.getD_some]
      rw [if_pos hceil]
    exact ⟨heq, by rw [heq]; exact flushBlockBuffer_clears _ _⟩

/-- C8 witness: two block fragments 1.5 s apart produce no send, and a
block append 8 s after the buffer opened flushes in the same call. -/
theorem buffer_latency_bound_witness :
    (runFragmentsFrom initialBufferState false
        [⟨⟨"a", [], none⟩, some "block", 1000⟩,
         ⟨⟨"b", [], none⟩, some "block", 2500⟩]).2.2 = [] ∧
    (bufferedDeliver ⟨["a"], [], none, some 1000, true⟩ false 9000 ⟨"b", [], none⟩
          (some "block")
        = flushBlockBuffer (appendBlock ⟨["a"], [], none, some 1000, true⟩ 9000
          ⟨"b", [], none⟩) false ∧
     (bufferedDeliver ⟨["a"], [], none, some 1000, true⟩ false 9000 ⟨"b", [], none⟩
          (some "block")).1 = initialBufferState) :=
  ⟨buffer_latency_bound.1 ⟨⟨"a", [], none⟩, some "block", 1000⟩
      [⟨⟨"b", [], none⟩, some "block", 2500⟩] rfl (by decide) (by decide),
   buffer_latency_bound.2 ⟨["a"], [], none, some 1000, true⟩ false 9000 1000
      ⟨"b", [], none⟩ rfl (by decide) (by decide)⟩

theorem forwardMentionToBot_abort_of_visited (reply : String → List (List String))
    (fuel : Nat) (t s : String) (ctx : ForwardContext)
    (h : mkEdge s t ∈ ctx.visitedEdges) :
    forwardMentionToBot reply fuel t s ctx = [] := by
  cases fuel with
  | zero => rfl
  | succ n =>
    unfold forwardMentionToBot
    by_cases h1 : MAX_FORWARD_DEPTH ≤ ctx.depth
    · rw [if_pos h1]
    · rw [if_neg h1, if_pos h]

theorem forwardMentionToBot_visited_mono (reply : String → List (List String)) :
    ∀ (fuel : Nat) (t s : String) (ctx : ForwardContext) (ev : ForwardEvent),
      ev ∈ forwardMentionToBot reply fuel t s ctx →
      ctx.visitedEdges ⊆ ev.ctxReceived.visitedEdges := by
  intro fuel
  induction fuel with
  | zero =>
    intro t s ctx ev hev
    simp [forwardMentionToBot] at hev
  | succ n ih =>
    intro t s ctx ev hev
    unfold forwardMentionToBot at hev
    by_cases h1 : MAX_FORWARD_DEPTH ≤ ctx.depth
    · rw [if_pos h1] at hev
      simp at hev
    rw [if_neg h1] at hev
    by_cases h2 : mkEdge s t ∈ ctx.visitedEdges
    · rw [if_pos h2] at hev
      simp at hev
    rw [if_neg h2] at hev
    rcases List.mem_cons.mp hev with hhd | htl
    · subst hhd
      exact fun x hx => List.mem_cons_of_mem _ hx
    · obtain ⟨l, hl, hin⟩ := List.mem_flatten.mp htl
      obtain ⟨mentioned, hm, rfl⟩ := List.mem_map.mp hl
      by_cases hc : ctx.depth + 1 < MAX_FORWARD_DEPTH ∧ mentioned ≠ []
      · rw [if_pos hc] at hin
        obtain ⟨l₂, hl₂, hin₂⟩ := List.mem_flatten.mp hin
        obtain ⟨u, hu, rfl⟩ := List.mem_map.mp hl₂
        have hsub := ih u t ⟨ctx.depth + 1, mkEdge s t :: ctx.visitedEdges⟩ ev hin₂
        exact fun x hx => hsub (List.mem_cons_of_mem _ hx)
      · rw [if_neg hc] at hin
        simp at hin

theorem forwardMentionToBot_cycle (n : Nat) :
    (forwardMentionToBot replyCycle (n + 2) "B" "A" ⟨0, []⟩).map eventEdge
      = [mkEdge "A" "B", mkEdge "B" "A"] := by
  have habort : forwardMentionToBot replyCycle n "B" "A" ⟨2, ["B→A", "A→B"]⟩ = [] :=
    forwardMentionToBot_abort_of_visited _ _ _ _ _ (by decide)
  show (forwardMentionToBot replyCycle (n + 1 + 1) "B" "A" ⟨0, []⟩).map eventEdge = _
  simp [forwardMentionToBot, replyCycle, habort, MAX_FORWARD_DEPTH, mkEdge, eventEdge]

/-- C1 counterexample: one root group dispatch in which the Forward
Coordinator uses the same edge twice.  Bot A's reply mentions B and C;
B's reply mentions A; A's re-dispatched reply mentions B (skipped, edge
already on that chain) and C (forwarded, edge A to C not on that chain);
then the root loop forwards A to C again from the root state, because
sibling branches deliberately do not share visitedEdges.  The A-to-C edge
is therefore used twice in one root dispatch tree, unaborted. -/
theorem forward_edge_reused_in_tree_cex :
    ((rootGroupDispatch replyDup 10 "A").map eventEdge).count (mkEdge "A" "C") = 2 := by
  decide

/-- C1 (amended): along any single forwarding chain the traversal state
is threaded downward, so an edge is used at most once per chain: a
forward call whose edge is already in the received visitedEdges aborts
with no dispatch, and every deeper dispatch of a successful forward
carries the forwarded edge in its received state (so the same edge can
recur only across sibling branches, which extend the parent state
independently).  A 3-cycle A to B to A to B terminates after at most 2
hops that add new edges, for every sufficient fuel. -/
theorem forward_edge_once_per_chain :
    (∀ (reply : String → List (List String)) (fuel : Nat) (t s : String)
        (ctx : ForwardContext),
      mkEdge s t ∈ ctx.visitedEdges → forwardMentionToBot reply fuel t s ctx = []) ∧
    (∀ (reply : String → List (List String)) (fuel : Nat) (t s : String)
        (ctx : ForwardContext) (ev : ForwardEvent),
      ev ∈ forwardMentionToBot reply fuel t s ctx →
      ctx.visitedEdges ⊆ ev.ctxReceived.visitedEdges) ∧
    (∀ n : Nat, (forwardMentionToBot replyCycle (n + 2) "B" "A" ⟨0, []⟩).map eventEdge
      = [mkEdge "A" "B", mkEdge "B" "A"]) :=
  ⟨fun reply fuel t s ctx h => forwardMentionToBot_abort_of_visited reply fuel t s ctx h,
   fun reply fuel t s ctx ev hev => forwardMentionToBot_visited_mono reply fuel t s ctx ev hev,
   forwardMentionToBot_cycle⟩

/-- C1 amended witness: a repeated edge aborts on a concrete chain state,
monotonicity holds for the first event of a concrete cycle run, and the
concrete 3-cycle run at the smallest sufficient fuel stops after the two
hops. -/
theorem forward_edge_once_per_chain_witness :
    forwardMentionToBot replyCycle 5 "B" "A" ⟨1, [mkEdge "A" "B"]⟩ = [] ∧
    (⟨0, []⟩ : ForwardContext).visitedEdges ⊆
      (ForwardEvent.mk "A" "B" ⟨1, [mkEdge "A" "B"]⟩).ctxReceived.visitedEdges ∧
    (forwardMentionToBot replyCycle 2 "B" "A" ⟨0, []⟩).map eventEdge
      = [mkEdge "A" "B", mkEdge "B" "A"] :=
  ⟨forward_edge_once_per_chain.1 replyCycle 5 "B" "A" ⟨1, [mkEdge "A" "B"]⟩ (by decide),
   forward_edge_once_per_chain.2.1 replyCycle 2 "B" "A" ⟨0, []⟩
      ⟨"A", "B", ⟨1, [mkEdge "A" "B"]⟩⟩ (by decide),
   forward_edge_once_per_chain.2.2 0⟩

/-- C9: a forward call that passes both guards dispatches the target with
exactly the copy-on-write extension of the caller's traversal state —
depth + 1 and visitedEdges extended with the edge — while the caller's
own state is a value the call never modifies, so two sibling forward
calls both read the unextended state and neither can suppress the
other's first hop; and any forward call with depth at or above the
ceiling of 30 aborts with no dispatch at all. -/
theorem forward_copy_on_write_and_depth_guard :
    (∀ (reply : String → List (List String)) (fuel : Nat) (t s : String)
        (ctx : ForwardContext),
      ctx.depth < MAX_FORWARD_DEPTH → mkEdge s t ∉ ctx.visitedEdges →
      (forwardMentionToBot reply (fuel + 1) t s ctx).head?
        = some ⟨s, t, ⟨ctx.depth + 1, mkEdge s t :: ctx.visitedEdges⟩⟩) ∧
    (∀ (reply : String → List (List String)) (fuel : Nat) (t s : String)
        (ctx : ForwardContext),
      MAX_FORWARD_DEPTH ≤ ctx.depth → forwardMentionToBot reply fuel t s ctx = []) ∧
    (∀ (reply : String → List (List String)) (fuel : Nat) (t₁ t₂ s : String)
        (ctx : ForwardContext),
      ctx.depth < MAX_FORWARD_DEPTH →
      mkEdge s t₁ ∉ ctx.visitedEdges → mkEdge s t₂ ∉ ctx.visitedEdges →
      forwardMentionToBot reply (fuel + 1) t₁ s ctx ≠ [] ∧
      forwardMentionToBot reply (fuel + 1) t₂ s ctx ≠ []) := by
  have hhead : ∀ (reply : String → List (List String)) (fuel : Nat) (t s : String)
      (ctx : ForwardContext),
      ctx.depth < MAX_FORWARD_DEPTH → mkEdge s t ∉ ctx.visitedEdges →
      (forwardMentionToBot reply (fuel + 1) t s ctx).head?
        = some ⟨s, t, ⟨ctx.depth + 1, mkEdge s t :: ctx.visitedEdges⟩⟩ := by
    intro reply fuel t s ctx hd he
    unfold forwardMentionToBot
    rw [if_neg (not_le.mpr hd), if_neg he]
    rfl
  refine ⟨hhead, ?_, ?_⟩
  · intro reply fuel t s ctx hd
    cases fuel with
    | zero => rfl
    | succ n =>
      unfold forwardMentionToBot
      rw [if_pos hd]
  · intro reply fuel t₁ t₂ s ctx hd he₁ he₂
    constructor
    · intro hnil
      have := hhead reply fuel t₁ s ctx hd he₁
      rw [hnil] at this
      simp at this
    · intro hnil
      have := hhead reply fuel t₂ s ctx hd he₂
      rw [hnil] at this
      simp at this

/-- C9 witness: a concrete passing forward call dispatches with the
extended state, a depth-30 call aborts, and two concrete sibling calls
from one state both make their first hop. -/
theorem forward_copy_on_write_and_depth_guard_witness :
    (forwardMentionToBot replyDup 3 "B" "A" ⟨0, []⟩).head?
        = some ⟨"A", "B", ⟨1, [mkEdge "A" "B"]⟩⟩ ∧
    forwardMentionToBot replyDup 3 "B" "A" ⟨30, []⟩ = [] ∧
    (forwardMentionToBot replyDup 3 "B" "A" ⟨0, []⟩ ≠ [] ∧
     forwardMentionToBot replyDup 3 "C" "A" ⟨0, []⟩ ≠ []) :=
  ⟨forward_copy_on_write_and_depth_guard.1 replyDup 2 "B" "A" ⟨0, []⟩
      (by decide) (by decide),
   forward_copy_on_write_and_depth_guard.2.1 replyDup 3 "B" "A" ⟨30, []⟩ (by decide),
   forward_copy_on_write_and_depth_guard.2.2 replyDup 2 "B" "C" "A" ⟨0, []⟩
      (by decide) (by decide) (by decide)⟩

end Feishu
